import Mathlib

/-!
Verification of the ViQi prototype matchmaking backend.

Shallow embedding of the reveal-gating, credit/subscription accounting and
masking logic of the repository:
  * `apps/api/routes/matching.py` — DB-backed match/reveal endpoints,
  * `apps/api/routes/matching_poc.py` — session-only POC endpoint,
  * `apps/api/services/stripe_metering.py` — credit-balance projection,
  * `apps/api/services/llm_service.py` — recommendation validation and
    credit-cost assessment,
  * `apps/api/services/llm_provider.py` — provider wrapper,
  * `apps/api/services/subscription_service.py` — expiry checks,
  * `apps/api/models/models.py` — `User.is_subscribed`.

Python strings are modelled as Lean `String` (operating on `.data`,
the list of characters), Python `int` as `Int`, Python `float` scores as
`ℚ` (the operations involved — `min`, `max`, comparison against 0 and 1,
fixed literals — are exact), nullable values as `Option`, raised
exceptions as `Except`/`Option`, and `datetime` instants as epoch
seconds (`Int`).
-/

/-- Python `s.split(sep)` for a one-character separator, on the character
list of the string.  `splitChar sep [] = [[]]`, matching Python where
`"".split(c) == ['']`. -/
def splitChar (sep : Char) : List Char → List (List Char)
  | [] => [[]]
  | c :: rest =>
    let r := splitChar sep rest
    if c = sep then [] :: r
    else
      match r with
      | [] => [[c]]
      | h :: t => (c :: h) :: t

/-- Python `str.split()` (no argument): split on whitespace runs and drop
empty fragments.  `acc` is the current word accumulated in reverse. -/
def wsSplitAux : List Char → List Char → List (List Char)
  | [], acc => if acc = [] then [] else [acc.reverse]
  | c :: rest, acc =>
    if c.isWhitespace then
      if acc = [] then wsSplitAux rest [] else acc.reverse :: wsSplitAux rest []
    else wsSplitAux rest (c :: acc)

def wsSplit (l : List Char) : List (List Char) := wsSplitAux l []

/-- Python `str.strip()`: drop leading and trailing whitespace. -/
def pyStrip (l : List Char) : List Char :=
  ((l.dropWhile Char.isWhitespace).reverse.dropWhile Char.isWhitespace).reverse

/-- Python `str.lower()` (ASCII case folding). -/
def pyLower (l : List Char) : List Char := l.map Char.toLower

/-- Python `max(a, b)` on rationals (returns the first argument on a
tie). -/
def pyMax (a b : ℚ) : ℚ := if a < b then b else a

/-- Python `min(a, b)` on rationals (returns the first argument on a
tie). -/
def pyMin (a b : ℚ) : ℚ := if b < a then b else a

lemma pyMax_eq (a b : ℚ) : pyMax a b = max a b := by
  unfold pyMax
  rcases lt_or_ge a b with h | h
  · rw [if_pos h, max_eq_right h.le]
  · rw [if_neg (not_lt.mpr h), max_eq_left h]

lemma pyMin_eq (a b : ℚ) : pyMin a b = min a b := by
  unfold pyMin
  rcases lt_or_ge b a with h | h
  · rw [if_pos h, min_eq_right h.le]
  · rw [if_neg (not_lt.mpr h), min_eq_left h]

/-- The pattern `x[0] + "*" * (len(x) - 2) + x[-1]` guarded by
`len(x) <= thr`, shared by the masking helpers of the repo:
for `len(x) <= thr` every character becomes `*`, otherwise the first and
last characters are kept and the interior is starred. -/
def maskKeepEnds (thr : Nat) (l : List Char) : List Char :=
  if l.length ≤ thr then List.replicate l.length '*'
  else l.headD '*' :: (List.replicate (l.length - 2) '*' ++ [l.getLastD '*'])

namespace Matching

/-- `mask_company_name` from `apps/api/routes/matching.py`:
`"*" * len(name)` when `len(name) <= 3`, otherwise
`name[0] + "*" * (len(name) - 2) + name[-1]`. -/
def mask_company_name (name : String) : String :=
  String.mk (maskKeepEnds 3 name.data)

end Matching

namespace MatchingPoc

/-- `mask_email` from `apps/api/routes/matching_poc.py`.  Returns the
input unchanged when it contains no `@`.  Otherwise Python unpacks
`local, domain = email.split('@')`, which raises `ValueError` when the
split does not have exactly two parts — modelled as `none`.  The local
part is masked with threshold 2, the first label of the domain with
threshold 3; remaining labels are kept verbatim; a domain without `.` is
kept verbatim. -/
def mask_email (email : String) : Option String :=
  if '@' ∈ email.data then
    match splitChar '@' email.data with
    | [l, d] =>
      let maskedLocal := maskKeepEnds 2 l
      let dParts := splitChar '.' d
      let maskedDomain :=
        if 2 ≤ dParts.length then
          maskKeepEnds 3 (dParts.headD []) ++ '.' :: List.intercalate ['.'] dParts.tail
        else d
      some (String.mk (maskedLocal ++ '@' :: maskedDomain))
    | _ => none
  else some email

/-- One word of `blur_company_name`: `"*" * len` for `len <= 2`,
`word[0] + "*" * (len - 1)` for `len <= 4`, else keep first and last. -/
def blurWord (w : List Char) : List Char :=
  if w.length ≤ 2 then List.replicate w.length '*'
  else if w.length ≤ 4 then w.headD '*' :: List.replicate (w.length - 1) '*'
  else w.headD '*' :: (List.replicate (w.length - 2) '*' ++ [w.getLastD '*'])

/-- `blur_company_name` from `apps/api/routes/matching_poc.py`. -/
def blur_company_name (company : String) : String :=
  if company.data.length ≤ 3 then String.mk (List.replicate company.data.length '*')
  else String.mk (List.intercalate [' '] ((wsSplit company.data).map blurWord))

end MatchingPoc

namespace StripeMetering

/-- `UsageSummary` dataclass from `apps/api/services/stripe_metering.py`. -/
structure UsageSummary where
  used : Int
  pending : Int
  period_start : Option Int
  period_end : Option Int
deriving DecidableEq

/-- The dictionary returned by `project_credit_balances`. -/
structure CreditBalances where
  used : Int
  remaining : Int
  pending : Int
  projected_used : Int
  projected_remaining : Int
deriving DecidableEq

/-- `project_credit_balances` from `apps/api/services/stripe_metering.py`.
Note that the source clamps `additional_usage` with `max(additional_usage, 0)`
before adding it to `used` and `pending`. -/
def project_credit_balances (included_credits : Int) (usage_summary : UsageSummary)
    (additional_usage : Int) : CreditBalances :=
  let used := usage_summary.used
  let projected_used := used + max additional_usage 0
  let pending := usage_summary.pending + max additional_usage 0
  let remaining := max (included_credits - used) 0
  let projected_remaining := max (included_credits - projected_used) 0
  { used := used, remaining := remaining, pending := pending,
    projected_used := projected_used, projected_remaining := projected_remaining }

end StripeMetering

namespace MatchingPoc

/-- `clamp = lambda value: max(CREDIT_COST_MIN, min(CREDIT_COST_MAX, value))`
from `estimate_credit_cost` in `apps/api/routes/matching_poc.py`. -/
def clampCredit (mn mx v : Int) : Int := max mn (min mx v)

/-- Outcome of the LLM call inside `LLMProvider.estimate_credit_cost`
(`apps/api/services/llm_provider.py`): either the integer parsed from the
digits of the response by `_parse_credit_number`, or any failure (provider
error, timeout, empty response, no digit in the response). -/
inductive EstimateOutcome
  | parsed (n : Nat)
  | failed
deriving DecidableEq

/-- `LLMProvider.estimate_credit_cost` from `apps/api/services/llm_provider.py`:
the whole provider call is wrapped in `try/except Exception`, so every
failure (including the `LLMProviderError` raised by the number parser) is
caught and the function returns `default`.  It never raises. -/
def provider_estimate_credit_cost (o : EstimateOutcome) (dflt : Int) : Int :=
  match o with
  | .parsed n => (n : Int)
  | .failed => dflt

/-- `estimate_credit_cost` from `apps/api/routes/matching_poc.py`, with the
environment-configured bounds `CREDIT_COST_MIN`/`MAX`/`DEFAULT` as
parameters.  An empty query returns `CREDIT_COST_DEFAULT` unclamped.
Otherwise the provider result (which substitutes `CREDIT_COST_DEFAULT` on
any failure, see `provider_estimate_credit_cost`) is clamped into range.
The `except LLMProviderError` branch computing the heuristic
`max(len(query.strip()) // 120, CREDIT_COST_DEFAULT)` is unreachable,
because the provider wrapper never lets that exception escape. -/
def estimate_credit_cost (mn mx dflt : Int) (query : String) (o : EstimateOutcome) : Int :=
  if query = "" then dflt
  else clampCredit mn mx (provider_estimate_credit_cost o dflt)

end MatchingPoc

namespace LLMSvc

/-- Outcome of the Gemini call in `LLMService.assess_credit_cost`
(`apps/api/services/llm_service.py`): the response text, or any raised
exception. -/
inductive GeminiOutcome
  | text (s : String)
  | error
deriving DecidableEq

/-- The scanning loop of `assess_credit_cost`: the first character `c` of
the response with `c.isdigit() and 1 <= int(c) <= 5` yields `int(c)`. -/
def firstCreditDigit : List Char → Option Int
  | [] => none
  | c :: rest =>
    if c.isDigit ∧ 1 ≤ ((c.toNat : Int) - 48) ∧ ((c.toNat : Int) - 48) ≤ 5 then
      some ((c.toNat : Int) - 48)
    else firstCreditDigit rest

/-- `LLMService.assess_credit_cost` from `apps/api/services/llm_service.py`
(Gemini deployment, hardcoded scale 1..5): returns the first in-range digit
of the stripped response text, and defaults to 1 when no such digit is
found or the call raises. -/
def assess_credit_cost (o : GeminiOutcome) : Int :=
  match o with
  | .error => 1
  | .text s =>
    match firstCreditDigit (pyStrip s.data) with
    | some c => c
    | none => 1

/-- The candidate-dict fields of `_get_candidates`
(`apps/api/routes/matching.py`) that `_validate_recommendations` reads:
`id`, `full_name`, `company_id`, `company_name`. -/
structure Candidate where
  id : Int
  full_name : String
  company_id : Int
  company_name : String
deriving DecidableEq

/-- The `score` entry of a raw LLM recommendation dict: absent
(`rec.get("score", 0.8)` substitutes 0.8), a numeric value, or a value on
which `float(...)` raises (`ValueError`/`TypeError`), which makes
`_validate_recommendations` skip the whole record. -/
inductive ScoreField
  | missing
  | val (q : ℚ)
  | bad
deriving DecidableEq

/-- A raw LLM recommendation dict as read by `_validate_recommendations`. -/
structure Recommendation where
  person_id : Option Int
  reason : Option String
  email_draft : Option String
  score : ScoreField
  email_address : Option String
deriving DecidableEq

/-- A validated recommendation dict built by `_validate_recommendations`. -/
structure VRec where
  person_id : Int
  company_id : Int
  reason : String
  email_draft : String
  score : ℚ
  email_address : String
deriving DecidableEq

/-- Python string slicing `s[:n]` (by characters). -/
def pyTake (n : Nat) (s : String) : String := String.mk (s.data.take n)

/-- The default `email_address`
`f"{candidate.get('full_name', 'contact').lower().replace(' ', '.')}@{candidate.get('company_name', 'company').lower().replace(' ', '')}.com"`
(the candidate dict always carries both keys). -/
def fallbackEmail (c : Candidate) : String :=
  String.mk
    (((pyLower c.full_name.data).map fun ch => if ch = ' ' then '.' else ch) ++
      '@' :: ((pyLower c.company_name.data).filter fun ch => ch ≠ ' ') ++ ".com".data)

/-- `min(max(float(rec.get("score", 0.8)), 0.0), 1.0)`. -/
def clampScore (q : ℚ) : ℚ := pyMin (pyMax q 0) 1

/-- One iteration of the validation loop of `_validate_recommendations`
(`apps/api/services/llm_service.py`): `none` when the record is skipped
(person id absent from the candidate pool, or `float(score)` raising). -/
def validateOne (cands : List Candidate) (r : Recommendation) : Option VRec :=
  match r.person_id with
  | none => none
  | some pid =>
    match cands.find? (fun c => c.id == pid) with
    | none => none
    | some c =>
      match r.score with
      | .bad => none
      | .missing =>
        some { person_id := pid, company_id := c.company_id,
               reason := pyTake 500 (r.reason.getD "Good potential match"),
               email_draft := pyTake 1000 (r.email_draft.getD ""),
               score := clampScore ((8 : ℚ)/10),
               email_address := r.email_address.getD (fallbackEmail c) }
      | .val q =>
        some { person_id := pid, company_id := c.company_id,
               reason := pyTake 500 (r.reason.getD "Good potential match"),
               email_draft := pyTake 1000 (r.email_draft.getD ""),
               score := clampScore q,
               email_address := r.email_address.getD (fallbackEmail c) }

/-- The `for rec in recommendations` loop of `_validate_recommendations`:
appends each validated record and breaks once `len(validated) >= 4`. -/
def validateLoop (cands : List Candidate) : List Recommendation → List VRec → List VRec
  | [], acc => acc
  | r :: rest, acc =>
    match validateOne cands r with
    | none => validateLoop cands rest acc
    | some v =>
      let acc2 := acc ++ [v]
      if 4 ≤ acc2.length then acc2 else validateLoop cands rest acc2

/-- A deterministic fallback entry built from an unused candidate by the
backfill loop of `_validate_recommendations`. -/
def fallbackRec (c : Candidate) : VRec :=
  { person_id := c.id, company_id := c.company_id,
    reason := "Experienced professional at " ++ c.company_name ++
      " with relevant industry expertise and strong track record in film and TV projects.",
    email_draft := "Hi " ++ c.full_name ++
      ",\n\nI came across your profile at " ++ c.company_name ++
      " and was impressed by your experience in the film and TV industry. I\x27m currently working on a project that could benefit from your expertise.\n\nWould you be open to a brief conversation to discuss potential collaboration opportunities? I\x27d be happy to share more details about the project and how it might align with your interests.\n\nBest regards",
    score := (6 : ℚ)/10,
    email_address := fallbackEmail c }

/-- The `while len(validated) < 4 and len(validated) < len(candidates)`
backfill loop of `_validate_recommendations`.  Each iteration appends one
entry, so the guard `len(validated) < 4` bounds the number of iterations
by 4; fuel 4 therefore reproduces the loop exactly. -/
def backfillAux (cands : List Candidate) : Nat → List VRec → List VRec
  | 0, v => v
  | n + 1, v =>
    if v.length < 4 ∧ v.length < cands.length then
      match cands.filter (fun c => !((v.map (fun r => r.person_id)).contains c.id)) with
      | [] => v
      | c :: _ => backfillAux cands n (v ++ [fallbackRec c])
    else v

/-- `LLMService._validate_recommendations` from
`apps/api/services/llm_service.py`: the validation loop followed by the
fallback backfill. -/
def validate_recommendations (recs : List Recommendation) (cands : List Candidate) :
    List VRec :=
  backfillAux cands 4 (validateLoop cands recs [])

end LLMSvc

namespace Matching

/-- The entitlement-relevant columns of `User`
(`apps/api/models/models.py`): `credits_balance`, nullable
`subscription_status`, nullable `subscription_expires_at` (epoch
seconds). -/
structure UserRow where
  id : Int
  credits_balance : Int
  subscription_status : Option String
  subscription_expires_at : Option Int
deriving DecidableEq

/-- `User.is_subscribed` from `apps/api/models/models.py`:
`subscription_status in ['active', 'trialing'] and subscription_expires_at
and subscription_expires_at > datetime.utcnow()` (a datetime is always
truthy, `None` is falsy). -/
def is_subscribed (u : UserRow) (now : Int) : Bool :=
  decide (u.subscription_status = some "active" ∨ u.subscription_status = some "trialing") &&
    (match u.subscription_expires_at with
     | some e => decide (now < e)
     | none => false)

/-- The columns of `Match` that `reveal_match` reads or writes. -/
structure MatchRow where
  id : Int
  user_id : Int
  credit_cost : Int
  status : String
deriving DecidableEq

/-- One `MatchResult` row joined with its `Person` and `Company` rows, as
read by `_get_revealed_results`. -/
structure ResultRow where
  person_id : Int
  company_id : Int
  person_name : String
  person_title : Option String
  company_name : String
  email_plain : Option String
  person_email_plain : Option String
  reason : String
  email_draft : String
  score : ℚ
  revealed_at : Option Int
deriving DecidableEq

/-- The `PersonRevealed` response model of `apps/api/routes/matching.py`. -/
structure PersonRevealed where
  id : Int
  name : String
  title : Option String
  company_name : String
  company_id : Int
  email : String
  reason : String
  email_draft : String
  score : ℚ
deriving DecidableEq

/-- The `RevealResponse` response model of `apps/api/routes/matching.py`. -/
structure RevealResponse where
  match_id : Int
  results : List PersonRevealed
deriving DecidableEq

/-- A raised `fastapi.HTTPException`. -/
structure HTTPError where
  status_code : Int
  detail : String
deriving DecidableEq

/-- The database state touched by `reveal_match`: the queried match, the
requesting user, the match result rows, and the appended `UsageLog` rows
(kind, amount). -/
structure RevealState where
  m : MatchRow
  user : UserRow
  results : List ResultRow
  usage_logs : List (String × Int)
deriving DecidableEq

/-- Python `a or b` for a nullable string `a` (both `None` and `""` are
falsy). -/
def pyStrOr (a : Option String) (b : String) : String :=
  match a with
  | some s => if s = "" then b else s
  | none => b

/-- One entry of `_get_revealed_results`
(`apps/api/routes/matching.py`): the email is
`result.email_plain or person.email_plain or "contact@company.com"`. -/
def revealedOf (r : ResultRow) : PersonRevealed :=
  { id := r.person_id, name := r.person_name, title := r.person_title,
    company_name := r.company_name, company_id := r.company_id,
    email := pyStrOr r.email_plain (pyStrOr r.person_email_plain "contact@company.com"),
    reason := r.reason, email_draft := r.email_draft, score := r.score }

/-- `_get_revealed_results` from `apps/api/routes/matching.py`. -/
def get_revealed_results (st : RevealState) : RevealResponse :=
  { match_id := st.m.id, results := st.results.map revealedOf }

/-- The human-readable hint appended to the 402 detail in `reveal_match`,
derived from `current_user.subscription_status` (skipped when the status
is falsy, i.e. `None` or `""`). -/
def subscription_msg (st : Option String) : String :=
  match st with
  | none => ""
  | some s =>
    if s = "" then ""
    else if s = "past_due" then " Your subscription payment is past due."
    else if s = "canceled" then " Your subscription has been canceled."
    else " Your subscription status: " ++ s ++ "."

/-- The `if match.status == "preview"` entitlement block of `reveal_match`
(`apps/api/routes/matching.py`): subscription check first, then the credit
check with deduction and `UsageLog` append, else HTTP 402; any other
status (e.g. the intermediate `"paid"`) falls through unchanged. -/
def entitlement_step (st : RevealState) (now : Int) : Except HTTPError RevealState :=
  if st.m.status = "preview" then
    if is_subscribed st.user now then
      .ok { st with m := { st.m with status := "revealed" } }
    else if st.m.credit_cost ≤ st.user.credits_balance then
      .ok { st with
            user := { st.user with
                      credits_balance := st.user.credits_balance - st.m.credit_cost },
            usage_logs := st.usage_logs ++ [("contact_reveal", st.m.credit_cost)],
            m := { st.m with status := "revealed" } }
    else
      .error { status_code := 402,
               detail := "Insufficient credits and no active subscription." ++
                 subscription_msg st.user.subscription_status ++
                 " Please purchase credits or upgrade your plan." }
  else .ok st

/-- `reveal_match` from `apps/api/routes/matching.py`: ownership check
(the query filters on both `Match.id` and `Match.user_id`, a miss is HTTP
404), early return of the cached results when the match is already
revealed, the entitlement block, then `revealed_at = now` on every result
row and the revealed response. -/
def reveal_match (st : RevealState) (uid mid now : Int) :
    Except HTTPError (RevealState × RevealResponse) :=
  if st.m.id = mid ∧ st.m.user_id = uid then
    if st.m.status = "revealed" then
      .ok (st, get_revealed_results st)
    else
      match entitlement_step st now with
      | .error e => .error e
      | .ok st1 =>
        let st2 := { st1 with
                     results := st1.results.map (fun r => { r with revealed_at := some now }) }
        .ok (st2, get_revealed_results st2)
  else .error { status_code := 404, detail := "Match not found" }

/-- A sequence of reveal calls at the given instants; a failed call leaves
the state unchanged (the 402/404 is raised before any mutation). -/
def revealSeq (uid mid : Int) : RevealState → List Int → RevealState
  | st, [] => st
  | st, t :: ts =>
    match reveal_match st uid mid t with
    | .ok (st1, _) => revealSeq uid mid st1 ts
    | .error _ => revealSeq uid mid st ts

end Matching

namespace SubscriptionSvc

/-- The dictionary returned by
`SubscriptionService.check_subscription_expiry`. -/
structure ExpiryInfo where
  status : String
  expires_in_days : Option Int
  action_needed : Bool
  message : String
deriving DecidableEq

/-- `SubscriptionService.check_subscription_expiry` from
`apps/api/services/subscription_service.py`, at one-second granularity.
`timedelta.days` is floor division of the total seconds by 86400, which
for the positive values reached at that line matches `Int` division. -/
def check_subscription_expiry (u : Matching.UserRow) (now : Int) : ExpiryInfo :=
  match u.subscription_expires_at with
  | none =>
    { status := "no_subscription", expires_in_days := none,
      action_needed := false, message := "No active subscription" }
  | some e =>
    let secs : Int := e - now
    if secs ≤ 0 then
      { status := "expired", expires_in_days := some 0,
        action_needed := true, message := "Subscription has expired" }
    else
      let days : Int := secs / 86400
      if days ≤ 7 then
        { status := "expiring_soon", expires_in_days := some days,
          action_needed := true,
          message := "Subscription expires in " ++ toString days ++ " days" }
      else if days ≤ 30 then
        { status := "expiring_within_month", expires_in_days := some days,
          action_needed := false,
          message := "Subscription expires in " ++ toString days ++ " days" }
      else
        { status := "active", expires_in_days := some days,
          action_needed := false,
          message := "Subscription active for " ++ toString days ++ " more days" }

end SubscriptionSvc

namespace MatchingPoc

/-- The dict fields of one element of `results_source` that
`_build_match_response` reads (`result.get(...)` with defaults). -/
structure SourceRec where
  name : Option String
  title : Option String
  company : Option String
  email : Option String
  reason : Option String
  email_draft : Option String
deriving DecidableEq

/-- The `MatchResult` response model of `apps/api/routes/matching_poc.py`
(note the always-present `raw_email` field). -/
structure PocMatchResult where
  name : String
  title : String
  company_name : String
  company_blurred : String
  email_masked : String
  email_plain : String
  raw_email : String
  reason : String
  email_draft : String
  score : ℚ
deriving DecidableEq

/-- One iteration of the result loop of `_build_match_response`
(`apps/api/routes/matching_poc.py`), for the element at index `i`:
`company_blurred` is blurred and `email_masked` masked only when not
paid, `email_plain` is emptied when not paid, `raw_email` always carries
the plain email, and the score is `0.9 - i * 0.1`.  `none` models
`mask_email` raising (plain email with several `@`). -/
def build_one (i : Nat) (r : SourceRec) (is_paid : Bool) : Option PocMatchResult :=
  let company_name := r.company.getD "Media Company"
  let plain_email := r.email.getD ("contact" ++ toString (i + 1) ++ "@company.com")
  (if is_paid then some plain_email else mask_email plain_email).map fun masked =>
    { name := r.name.getD ("Contact " ++ toString (i + 1)),
      title := r.title.getD "Industry Professional",
      company_name := company_name,
      company_blurred := if is_paid then company_name else blur_company_name company_name,
      email_plain := if is_paid then plain_email else "",
      email_masked := masked,
      raw_email := plain_email,
      reason := r.reason.getD "Industry professional with relevant experience",
      email_draft := r.email_draft.getD "Professional outreach email",
      score := (9 : ℚ)/10 - (i : ℚ) * ((1 : ℚ)/10) }

/-- The indexed loop over `results_source[: request.max_results]` in
`_build_match_response`. -/
def buildAux (is_paid : Bool) : Nat → List SourceRec → Option (List PocMatchResult)
  | _, [] => some []
  | i, r :: rest =>
    match build_one i r is_paid with
    | none => none
    | some v => (buildAux is_paid (i + 1) rest).map (fun l => v :: l)

/-- The result list built by `_build_match_response`
(`apps/api/routes/matching_poc.py`); the response sets
`revealed := is_paid` alongside it. -/
def build_match_results (source : List SourceRec) (max_results : Nat) (is_paid : Bool) :
    Option (List PocMatchResult) :=
  buildAux is_paid 0 (source.take max_results)

/-- The masking rule as the claim describes one part (local part or
domain label): keep first and last characters when the length exceeds
`thr`, otherwise replace every character with a star. -/
def specMaskPart (thr : Nat) (l : List Char) : List Char :=
  if thr < l.length then
    l.headD '*' :: (List.replicate (l.length - 2) '*' ++ [l.getLastD '*'])
  else List.replicate l.length '*'

/-- The amended claim for `mask_email`, assembled from the claim's own
sentence structure: input without `@` unchanged; exactly one `@` splits
the address; the local part keeps first/last only beyond length 2, the
first domain label only beyond length 3 (this threshold is the
amendment); remaining labels verbatim; a domain without `.` verbatim;
several `@` raise (`none`). -/
def spec_mask_email (email : String) : Option String :=
  if '@' ∈ email.data then
    match splitChar '@' email.data with
    | [l, d] =>
      some (String.mk (specMaskPart 2 l ++ '@' ::
        (match splitChar '.' d with
         | [] => d
         | [_] => d
         | first :: rest => specMaskPart 3 first ++ '.' :: List.intercalate ['.'] rest)))
    | _ => none
  else some email

end MatchingPoc

/-- A pool candidate used by the C7 duplicate-id counterexample. -/
def c7cand : LLMSvc.Candidate := ⟨1, "Jane Doe", 11, "Netflix"⟩

/-- A valid LLM recommendation referencing `c7cand`. -/
def c7rec : LLMSvc.Recommendation :=
  ⟨some 1, some "good match", some "draft", .val 1, some "jane@netflix.com"⟩

/-- Six candidates for the claim's six-recommendations scenario. -/
def c7cands6 : List LLMSvc.Candidate :=
  [⟨1, "A A", 1, "CA"⟩, ⟨2, "B B", 2, "CB"⟩, ⟨3, "C C", 3, "CC"⟩,
   ⟨4, "D D", 4, "CD"⟩, ⟨5, "E E", 5, "CE"⟩, ⟨6, "F F", 6, "CF"⟩]

/-- Six valid LLM recommendations over `c7cands6`. -/
def c7recs6 : List LLMSvc.Recommendation :=
  [⟨some 1, some "r1", some "d1", .val 1, none⟩,
   ⟨some 2, some "r2", some "d2", .val 1, none⟩,
   ⟨some 3, some "r3", some "d3", .val 1, none⟩,
   ⟨some 4, some "r4", some "d4", .val 1, none⟩,
   ⟨some 5, some "r5", some "d5", .val 1, none⟩,
   ⟨some 6, some "r6", some "d6", .val 1, none⟩]

/-- The first entry of `MOCK_LLM_RESULTS` in
`apps/api/routes/matching_poc.py` (reason/draft abbreviated: the claims
only concern the email fields). -/
def mockRec : MatchingPoc.SourceRec :=
  ⟨some "Sarah Martinez", some "Director of Content Acquisition", some "Netflix",
   some "sarah.martinez@netflix.com", some "mock reason", some "mock draft"⟩

/-- A result row for the reveal witnesses. -/
def c2row : Matching.ResultRow :=
  ⟨21, 31, "Jane Doe", some "VP", "Netflix", some "jane@netflix.com", none, "r", "d", 1, none⟩

/-- A preview-state match owned by user 7, cost 3, balance 10. -/
def c2st0 : Matching.RevealState :=
  ⟨⟨1, 7, 3, "preview"⟩, ⟨7, 10, none, none⟩, [c2row], []⟩

/-- The state `c2st0` reaches after a successful credit reveal at `t = 1000`. -/
def c2st1 : Matching.RevealState :=
  ⟨⟨1, 7, 3, "revealed"⟩, ⟨7, 7, none, none⟩,
   [⟨21, 31, "Jane Doe", some "VP", "Netflix", some "jane@netflix.com", none, "r", "d", 1,
     some 1000⟩],
   [("contact_reveal", 3)]⟩

/-- The revealed response for `c2st0`. -/
def c2resp : Matching.RevealResponse :=
  ⟨1, [⟨21, "Jane Doe", some "VP", "Netflix", 31, "jane@netflix.com", "r", "d", 1⟩]⟩

/-- A preview-state match whose owner has 2 credits, cost 5, past-due
subscription. -/
def c3st : Matching.RevealState :=
  ⟨⟨1, 7, 5, "preview"⟩, ⟨7, 2, some "past_due", none⟩, [], []⟩

/-- A preview-state match whose owner has 0 credits but an active
subscription until `t = 5000`. -/
def c4st : Matching.RevealState :=
  ⟨⟨2, 9, 5, "preview"⟩, ⟨9, 0, some "active", some 5000⟩, [], []⟩

/-- A result row with a stored plain email, for the `"paid"`-status
fall-through counterexample. -/
def c1row : Matching.ResultRow :=
  ⟨41, 51, "Jane Doe", some "VP", "Netflix", some "jane@netflix.com", none, "r", "d", 1, none⟩

/-- A match in the intermediate `"paid"` status (the `Match.status`
column documents `preview, paid, revealed`), owned by user 5 who has no
credits and no subscription. -/
def c1paidSt : Matching.RevealState :=
  ⟨⟨3, 5, 2, "paid"⟩, ⟨5, 0, none, none⟩, [c1row], []⟩

/-- The state `c1paidSt` reaches after a reveal call at `t = 1000`: the
rows are stamped but the status stays `"paid"`. -/
def c1paidSt1 : Matching.RevealState :=
  ⟨⟨3, 5, 2, "paid"⟩, ⟨5, 0, none, none⟩,
   [⟨41, 51, "Jane Doe", some "VP", "Netflix", some "jane@netflix.com", none, "r", "d", 1,
     some 1000⟩],
   []⟩

/-- The response that reveal call returns: the stored plain email,
unmasked. -/
def c1paidResp : Matching.RevealResponse :=
  ⟨3, [⟨41, "Jane Doe", some "VP", "Netflix", 51, "jane@netflix.com", "r", "d", 1⟩]⟩

lemma specMaskPart_eq_maskKeepEnds (thr : Nat) (l : List Char) :
    MatchingPoc.specMaskPart thr l = maskKeepEnds thr l := by
  by_cases h : l.length ≤ thr
  · simp [MatchingPoc.specMaskPart, maskKeepEnds, h, Nat.not_lt.mpr h]
  · simp [MatchingPoc.specMaskPart, maskKeepEnds, h, Nat.lt_of_not_ge h]

/-- C9: `mask_company_name` returns a string of stars of the same length
when the name has at most 3 characters, and otherwise keeps the first and
last characters around a starred interior; `mask_company_name "AI" = "**"`
and `mask_company_name "Netflix" = "N*****x"`. -/
theorem mask_company_name_spec :
    (∀ name : String,
      (name.length ≤ 3 →
        Matching.mask_company_name name = String.mk (List.replicate name.length '*')) ∧
      (3 < name.length →
        Matching.mask_company_name name =
          String.mk (name.data.headD '*' ::
            (List.replicate (name.length - 2) '*' ++ [name.data.getLastD '*'])))) ∧
    Matching.mask_company_name "AI" = "**" ∧
    Matching.mask_company_name "Netflix" = "N*****x" := by
  refine ⟨fun name => ⟨fun h => ?_, fun h => ?_⟩, by decide, by decide⟩
  · simp [Matching.mask_company_name, maskKeepEnds, h]
  · simp [Matching.mask_company_name, maskKeepEnds, Nat.not_le.mpr h]

theorem mask_company_name_spec_witness :
    3 < ("Netflix" : String).length ∧
    Matching.mask_company_name "Netflix" =
      String.mk (("Netflix" : String).data.headD '*' ::
        (List.replicate (("Netflix" : String).length - 2) '*' ++
          [("Netflix" : String).data.getLastD '*'])) :=
  ⟨by decide, (mask_company_name_spec.1 "Netflix").2 (by decide)⟩

/-- C10: `check_subscription_expiry` reads only `subscription_expires_at`
and the current time; two users with equal expiry timestamps receive
identical results (status, expires_in_days, action_needed, message),
whatever their `subscription_status`. -/
theorem check_subscription_expiry_status_independent :
    ∀ (u1 u2 : Matching.UserRow) (now : Int),
      u1.subscription_expires_at = u2.subscription_expires_at →
      SubscriptionSvc.check_subscription_expiry u1 now =
        SubscriptionSvc.check_subscription_expiry u2 now := by
  intro u1 u2 now h
  unfold SubscriptionSvc.check_subscription_expiry
  rw [h]

theorem check_subscription_expiry_status_independent_witness :
    (Matching.UserRow.mk 1 0 (some "canceled") (some 1000)).subscription_expires_at =
      (Matching.UserRow.mk 2 99 (some "active") (some 1000)).subscription_expires_at ∧
    SubscriptionSvc.check_subscription_expiry ⟨1, 0, some "canceled", some 1000⟩ 0 =
      SubscriptionSvc.check_subscription_expiry ⟨2, 99, some "active", some 1000⟩ 0 :=
  ⟨rfl, check_subscription_expiry_status_independent ⟨1, 0, some "canceled", some 1000⟩
    ⟨2, 99, some "active", some 1000⟩ 0 rfl⟩

/-- C5 counterexample: the claim's exact formula
`projected_used = used + additional_usage` fails for a negative
`additional_usage`, because the source clamps it with
`max(additional_usage, 0)`: at `included=50, used=10, pending=0,
additional_usage=-5` the code returns `projected_used = 10`, not
`10 + (-5) = 5`. -/
theorem project_credit_balances_counterexample :
    (StripeMetering.project_credit_balances 50 ⟨10, 0, none, none⟩ (-5)).projected_used = 10 ∧
    ¬ (StripeMetering.project_credit_balances 50 ⟨10, 0, none, none⟩ (-5)).projected_used =
        10 + (-5) := by decide

/-- C5 amended: `project_credit_balances` returns exactly
`used = summary.used`, `remaining = max(included - used, 0)`,
`projected_used = used + max(additional_usage, 0)`,
`projected_remaining = max(included - projected_used, 0)`,
`pending = summary.pending + max(additional_usage, 0)`; in particular the
claim's concrete example with `additional_usage = 5` holds as stated. -/
theorem project_credit_balances_amended :
    (∀ (inc add : Int) (s : StripeMetering.UsageSummary),
      StripeMetering.project_credit_balances inc s add =
        { used := s.used, remaining := max (inc - s.used) 0,
          pending := s.pending + max add 0,
          projected_used := s.used + max add 0,
          projected_remaining := max (inc - (s.used + max add 0)) 0 }) ∧
    StripeMetering.project_credit_balances 50 ⟨10, 0, none, none⟩ 5 =
      { used := 10, remaining := 40, pending := 5,
        projected_used := 15, projected_remaining := 35 } :=
  ⟨fun _ _ _ => rfl, by decide⟩

/-- C8 counterexample: at `"a@abc.com"` the code masks the first domain
label `"abc"` with its own threshold (`len <= 3` gives all stars),
producing `"*@***.com"`, while the claim's rule (the same rule as the
local part: keep first and last when length > 2) demands `"*@a*c.com"`. -/
theorem mask_email_counterexample :
    MatchingPoc.mask_email "a@abc.com" = some "*@***.com" ∧
    ¬ MatchingPoc.mask_email "a@abc.com" = some "*@a*c.com" := by decide

/-- C8 amended: `mask_email` behaves exactly as the claim describes
except that the first domain label keeps its first and last characters
only when its length exceeds 3 (not 2 as for the local part), a domain
without a dot is kept verbatim, and an input with more than one `@`
raises a `ValueError` instead of being masked; an input without `@`
(including the empty string) is returned unchanged.  Stated as equality
with `spec_mask_email`, the rule assembled from the amended claim. -/
theorem mask_email_amended :
    ∀ email : String, MatchingPoc.mask_email email = MatchingPoc.spec_mask_email email := by
  intro email
  unfold MatchingPoc.mask_email MatchingPoc.spec_mask_email
  by_cases h : '@' ∈ email.data
  · simp only [if_pos h]
    rcases hs : splitChar '@' email.data with _ | ⟨l, _ | ⟨d, _ | ⟨x, xs⟩⟩⟩
    · rfl
    · rfl
    · simp only []
      rw [specMaskPart_eq_maskKeepEnds]
      rcases hd : splitChar '.' d with _ | ⟨f, _ | ⟨s2, t⟩⟩
      · simp [hd]
      · simp [hd]
      · simp [hd, specMaskPart_eq_maskKeepEnds, Nat.le_add_left]
    · rfl
  · simp [h]

/-- The first in-range digit found by the scanning loop of
`assess_credit_cost` lies in `[1, 5]`. -/
lemma firstCreditDigit_bounds :
    ∀ (l : List Char) (c : Int), LLMSvc.firstCreditDigit l = some c → 1 ≤ c ∧ c ≤ 5 := by
  intro l
  induction l with
  | nil => intro c h; simp [LLMSvc.firstCreditDigit] at h
  | cons a rest ih =>
    intro c h
    unfold LLMSvc.firstCreditDigit at h
    split_ifs at h with hc
    · obtain ⟨-, h1, h5⟩ := hc
      obtain rfl : ((a.toNat : Int) - 48) = c := by injection h
      exact ⟨h1, h5⟩
    · exact ih c h

set_option maxRecDepth 8000 in
/-- C6 counterexample: for a 240-character query, when the LLM call fails
the code returns `clamp(CREDIT_COST_DEFAULT) = 1` (the provider wrapper
catches every error and substitutes the default), not the claimed
heuristic `clamp(max(len(query) // 120, DEFAULT)) = 2` — that heuristic
line is unreachable because `LLMProvider.estimate_credit_cost` never lets
`LLMProviderError` escape. -/
theorem estimate_credit_cost_counterexample :
    MatchingPoc.estimate_credit_cost 1 10 1 (String.mk (List.replicate 240 'a')) .failed = 1 ∧
    MatchingPoc.clampCredit 1 10
      (max (((String.mk (List.replicate 240 'a')).data.length : Int) / 120) 1) = 2 ∧
    ¬ MatchingPoc.estimate_credit_cost 1 10 1 (String.mk (List.replicate 240 'a')) .failed =
        MatchingPoc.clampCredit 1 10
          (max (((String.mk (List.replicate 240 'a')).data.length : Int) / 120) 1) := by
  refine ⟨by decide, by decide, by decide⟩

/-- C6 amended: with configured bounds `MIN ≤ DEFAULT ≤ MAX`, the POC
estimator always returns a value in `[MIN, MAX]` (a parsed LLM answer is
clamped into range), and on parse failure or provider error it returns
`clamp(DEFAULT)` — not the documented heuristic, which is dead code;
`LLMService.assess_credit_cost` (hardcoded scale) always returns a value
in `[1, 5]`, defaulting to 1 on failure. -/
theorem estimate_credit_cost_amended :
    ∀ mn mx dflt : Int, mn ≤ dflt → dflt ≤ mx →
      (∀ (query : String) (o : MatchingPoc.EstimateOutcome),
        mn ≤ MatchingPoc.estimate_credit_cost mn mx dflt query o ∧
        MatchingPoc.estimate_credit_cost mn mx dflt query o ≤ mx) ∧
      (∀ query : String, ¬ query = "" →
        MatchingPoc.estimate_credit_cost mn mx dflt query .failed =
          MatchingPoc.clampCredit mn mx dflt) ∧
      (∀ o : LLMSvc.GeminiOutcome,
        1 ≤ LLMSvc.assess_credit_cost o ∧ LLMSvc.assess_credit_cost o ≤ 5) := by
  intro mn mx dflt hmd hdm
  refine ⟨fun query o => ?_, fun query hq => ?_, fun o => ?_⟩
  · unfold MatchingPoc.estimate_credit_cost
    split_ifs with hq
    · exact ⟨hmd, hdm⟩
    · unfold MatchingPoc.clampCredit
      exact ⟨le_max_left _ _, max_le (le_trans hmd hdm) (min_le_left _ _)⟩
  · unfold MatchingPoc.estimate_credit_cost
    rw [if_neg hq]
    rfl
  · cases o with
    | error => exact ⟨by decide, by decide⟩
    | text s =>
      have hmatch : LLMSvc.assess_credit_cost (.text s) =
          (match LLMSvc.firstCreditDigit (pyStrip s.data) with
           | some c => c
           | none => 1) := rfl
      rw [hmatch]
      cases h : LLMSvc.firstCreditDigit (pyStrip s.data) with
      | none => exact ⟨le_refl 1, by norm_num⟩
      | some c => exact firstCreditDigit_bounds _ c h

theorem estimate_credit_cost_amended_witness :
    (1 : Int) ≤ 1 ∧ (1 : Int) ≤ 10 ∧
    (1 ≤ MatchingPoc.estimate_credit_cost 1 10 1 "hello" (.parsed 7) ∧
      MatchingPoc.estimate_credit_cost 1 10 1 "hello" (.parsed 7) ≤ 10) :=
  ⟨by decide, by decide,
    (estimate_credit_cost_amended 1 10 1 (by decide) (by decide)).1 "hello" (.parsed 7)⟩

lemma validateOne_props (cands : List LLMSvc.Candidate) (r : LLMSvc.Recommendation)
    (v : LLMSvc.VRec) (h : LLMSvc.validateOne cands r = some v) :
    (∃ c ∈ cands, v.person_id = c.id) ∧ 0 ≤ v.score ∧ v.score ≤ 1 ∧
      v.reason.length ≤ 500 ∧ v.email_draft.length ≤ 1000 := by
  unfold LLMSvc.validateOne at h
  cases hp : r.person_id with
  | none => simp only [hp] at h; exact Option.noConfusion h
  | some pid =>
    simp only [hp] at h
    cases hf : cands.find? (fun c => c.id == pid) with
    | none => simp only [hf] at h; exact Option.noConfusion h
    | some c =>
      simp only [hf] at h
      have hc : c ∈ cands := List.mem_of_find?_eq_some hf
      have hcid : c.id = pid := by
        have := List.find?_some hf
        exact of_decide_eq_true this
      cases hsc : r.score with
      | bad => simp only [hsc] at h; exact Option.noConfusion h
      | missing =>
        simp only [hsc] at h
        obtain rfl : _ = v := Option.some.inj h
        refine ⟨⟨c, hc, hcid.symm⟩, ?_, ?_, ?_, ?_⟩
        · rw [LLMSvc.clampScore, pyMin_eq, pyMax_eq]
          exact le_min (le_max_right _ _) zero_le_one
        · rw [LLMSvc.clampScore, pyMin_eq]
          exact min_le_right _ _
        · show ((r.reason.getD "Good potential match").data.take 500).length ≤ 500
          rw [List.length_take]
          exact min_le_left _ _
        · show ((r.email_draft.getD "").data.take 1000).length ≤ 1000
          rw [List.length_take]
          exact min_le_left _ _
      | val q =>
        simp only [hsc] at h
        obtain rfl : _ = v := Option.some.inj h
        refine ⟨⟨c, hc, hcid.symm⟩, ?_, ?_, ?_, ?_⟩
        · rw [LLMSvc.clampScore, pyMin_eq, pyMax_eq]
          exact le_min (le_max_right _ _) zero_le_one
        · rw [LLMSvc.clampScore, pyMin_eq]
          exact min_le_right _ _
        · show ((r.reason.getD "Good potential match").data.take 500).length ≤ 500
          rw [List.length_take]
          exact min_le_left _ _
        · show ((r.email_draft.getD "").data.take 1000).length ≤ 1000
          rw [List.length_take]
          exact min_le_left _ _

lemma validateLoop_sub (cands : List LLMSvc.Candidate) :
    ∀ (recs : List LLMSvc.Recommendation) (acc : List LLMSvc.VRec) (v : LLMSvc.VRec),
      v ∈ LLMSvc.validateLoop cands recs acc →
      v ∈ acc ∨ ∃ r, LLMSvc.validateOne cands r = some v := by
  intro recs
  induction recs with
  | nil => intro acc v hv; exact Or.inl hv
  | cons r rest ih =>
    intro acc v hv
    unfold LLMSvc.validateLoop at hv
    cases ho : LLMSvc.validateOne cands r with
    | none => simp only [ho] at hv; exact ih acc v hv
    | some w =>
      simp only [ho] at hv
      by_cases hl : 4 ≤ (acc ++ [w]).length
      · rw [if_pos hl] at hv
        rcases List.mem_append.mp hv with h1 | h2
        · exact Or.inl h1
        · obtain rfl := List.mem_singleton.mp h2
          exact Or.inr ⟨r, ho⟩
      · rw [if_neg hl] at hv
        rcases ih _ v hv with h1 | h2
        · rcases List.mem_append.mp h1 with ha | hb
          · exact Or.inl ha
          · obtain rfl := List.mem_singleton.mp hb
            exact Or.inr ⟨r, ho⟩
        · exact Or.inr h2

lemma validateLoop_len (cands : List LLMSvc.Candidate) :
    ∀ (recs : List LLMSvc.Recommendation) (acc : List LLMSvc.VRec),
      acc.length ≤ 3 → (LLMSvc.validateLoop cands recs acc).length ≤ 4 := by
  intro recs
  induction recs with
  | nil =>
    intro acc ha
    unfold LLMSvc.validateLoop
    omega
  | cons r rest ih =>
    intro acc ha
    unfold LLMSvc.validateLoop
    cases ho : LLMSvc.validateOne cands r with
    | none => simp only [ho]; exact ih acc ha
    | some w =>
      simp only [ho]
      by_cases hl : 4 ≤ (acc ++ [w]).length
      · rw [if_pos hl]
        simp only [List.length_append, List.length_singleton]
        omega
      · rw [if_neg hl]
        apply ih
        simp only [List.length_append, List.length_singleton] at hl ⊢
        omega

lemma backfill_len (cands : List LLMSvc.Candidate) :
    ∀ (fuel : Nat) (v : List LLMSvc.VRec),
      (LLMSvc.backfillAux cands fuel v).length ≤ max v.length 4 := by
  intro fuel
  induction fuel with
  | zero => intro v; exact le_max_left _ _
  | succ n ih =>
    intro v
    unfold LLMSvc.backfillAux
    by_cases hg : v.length < 4 ∧ v.length < cands.length
    · rw [if_pos hg]
      cases hfil : cands.filter
          (fun c => !((v.map (fun r => r.person_id)).contains c.id)) with
      | nil => exact le_max_left _ _
      | cons c cs =>
        calc (LLMSvc.backfillAux cands n (v ++ [LLMSvc.fallbackRec c])).length
            ≤ max (v ++ [LLMSvc.fallbackRec c]).length 4 := ih _
          _ ≤ max v.length 4 := by
              simp only [List.length_append, List.length_singleton]
              omega
    · rw [if_neg hg]; exact le_max_left _ _

lemma backfill_mem (cands : List LLMSvc.Candidate) :
    ∀ (fuel : Nat) (w : List LLMSvc.VRec) (v : LLMSvc.VRec),
      v ∈ LLMSvc.backfillAux cands fuel w →
      v ∈ w ∨ ∃ c ∈ cands, v = LLMSvc.fallbackRec c := by
  intro fuel
  induction fuel with
  | zero => intro w v hv; exact Or.inl hv
  | succ n ih =>
    intro w v hv
    unfold LLMSvc.backfillAux at hv
    by_cases hg : w.length < 4 ∧ w.length < cands.length
    · rw [if_pos hg] at hv
      cases hfil : cands.filter
          (fun c => !((w.map (fun r => r.person_id)).contains c.id)) with
      | nil => rw [hfil] at hv; exact Or.inl hv
      | cons c cs =>
        rw [hfil] at hv
        have hcmem : c ∈ cands := by
          have : c ∈ cands.filter
              (fun c => !((w.map (fun r => r.person_id)).contains c.id)) := by
            rw [hfil]; exact List.mem_cons_self c cs
          exact (List.mem_filter.mp this).1
        rcases ih _ v hv with h1 | h2
        · rcases List.mem_append.mp h1 with ha | hb
          · exact Or.inl ha
          · obtain rfl := List.mem_singleton.mp hb
            exact Or.inr ⟨c, hcmem, rfl⟩
        · exact Or.inr h2
    · rw [if_neg hg] at hv; exact Or.inl hv

/-- C7 counterexample: `_validate_recommendations` does not deduplicate
by candidate id — two identical recommendations for candidate 1 yield two
output entries with the same `person_id`, so the output is not
duplicate-free as the claim requires. -/
theorem validate_recommendations_counterexample :
    (LLMSvc.validate_recommendations [c7rec, c7rec] [c7cand]).map
        (fun v => v.person_id) = [1, 1] ∧
    ¬ ((LLMSvc.validate_recommendations [c7rec, c7rec] [c7cand]).map
        (fun v => v.person_id)).Nodup := by decide

/-- C7 amended: every output entry of `_validate_recommendations`
references a candidate id from the pool and carries a score in `[0, 1]`
(an LLM score is clamped, a fallback entry is fixed at 0.6); entries
built from LLM recommendations have reason/draft truncated to 500/1000
characters; the output length is capped at 4 (duplicate candidate ids
are NOT removed); with six valid recommendations over six candidates,
exactly 4 results are produced. -/
theorem validate_recommendations_amended :
    (∀ (recs : List LLMSvc.Recommendation) (cands : List LLMSvc.Candidate),
      (LLMSvc.validate_recommendations recs cands).length ≤ 4 ∧
      (∀ v ∈ LLMSvc.validate_recommendations recs cands,
        (∃ c ∈ cands, v.person_id = c.id) ∧ 0 ≤ v.score ∧ v.score ≤ 1) ∧
      (∀ v ∈ LLMSvc.validateLoop cands recs [],
        v.reason.length ≤ 500 ∧ v.email_draft.length ≤ 1000)) ∧
    (LLMSvc.validate_recommendations c7recs6 c7cands6).length = 4 := by
  constructor
  · intro recs cands
    refine ⟨?_, ?_, ?_⟩
    · have h1 := validateLoop_len cands recs [] (by simp)
      have h2 := backfill_len cands 4 (LLMSvc.validateLoop cands recs [])
      unfold LLMSvc.validate_recommendations
      exact le_trans h2 (max_le h1 le_rfl)
    · intro v hv
      unfold LLMSvc.validate_recommendations at hv
      rcases backfill_mem cands 4 _ v hv with h1 | ⟨c, hc, rfl⟩
      · rcases validateLoop_sub cands recs [] v h1 with h2 | ⟨r, hr⟩
        · exact absurd h2 (List.not_mem_nil v)
        · obtain ⟨hid, h0, hle, -, -⟩ := validateOne_props cands r v hr
          exact ⟨hid, h0, hle⟩
      · refine ⟨⟨c, hc, rfl⟩, ?_, ?_⟩
        · show (0 : ℚ) ≤ (6 : ℚ)/10
          norm_num
        · show (6 : ℚ)/10 ≤ 1
          norm_num
    · intro v hv
      rcases validateLoop_sub cands recs [] v hv with h2 | ⟨r, hr⟩
      · exact absurd h2 (List.not_mem_nil v)
      · obtain ⟨-, -, -, h500, h1000⟩ := validateOne_props cands r v hr
        exact ⟨h500, h1000⟩
  · decide

theorem validate_recommendations_amended_witness :
    (LLMSvc.validate_recommendations [c7rec] [c7cand]).length ≤ 4 ∧
    (⟨1, 11, "good match", "draft", 1, "jane@netflix.com"⟩ : LLMSvc.VRec) ∈
        LLMSvc.validate_recommendations [c7rec] [c7cand] ∧
    (∃ c ∈ [c7cand],
      (⟨1, 11, "good match", "draft", 1, "jane@netflix.com"⟩ : LLMSvc.VRec).person_id = c.id) :=
  ⟨(validate_recommendations_amended.1 [c7rec] [c7cand]).1, by decide,
   ((validate_recommendations_amended.1 [c7rec] [c7cand]).2.1 _ (by decide)).1⟩

namespace Matching

lemma entitlement_step_not_preview (st : RevealState) (now : Int)
    (h : ¬ st.m.status = "preview") : entitlement_step st now = .ok st := by
  unfold entitlement_step
  rw [if_neg h]

lemma entitlement_step_ok_cases (st : RevealState) (now : Int) (stA : RevealState)
    (h : entitlement_step st now = .ok stA) :
    (¬ st.m.status = "preview" ∧ stA = st) ∨
    (st.m.status = "preview" ∧ is_subscribed st.user now = true ∧
      stA = { st with m := { st.m with status := "revealed" } }) ∨
    (st.m.status = "preview" ∧ is_subscribed st.user now = false ∧
      st.m.credit_cost ≤ st.user.credits_balance ∧
      stA = { st with
              user := { st.user with
                        credits_balance := st.user.credits_balance - st.m.credit_cost },
              usage_logs := st.usage_logs ++ [("contact_reveal", st.m.credit_cost)],
              m := { st.m with status := "revealed" } }) := by
  unfold entitlement_step at h
  by_cases hp : st.m.status = "preview"
  · rw [if_pos hp] at h
    by_cases hsub : is_subscribed st.user now = true
    · rw [if_pos hsub] at h
      exact Or.inr (Or.inl ⟨hp, hsub, (Except.ok.inj h).symm⟩)
    · rw [if_neg hsub] at h
      by_cases hcred : st.m.credit_cost ≤ st.user.credits_balance
      · rw [if_pos hcred] at h
        exact Or.inr (Or.inr ⟨hp, Bool.not_eq_true _ ▸ hsub, hcred, (Except.ok.inj h).symm⟩)
      · rw [if_neg hcred] at h
        exact absurd h (by simp)
  · rw [if_neg hp] at h
    exact Or.inl ⟨hp, (Except.ok.inj h).symm⟩

lemma get_revealed_results_stamp (st : RevealState) (t : Int) :
    get_revealed_results
      { st with results := st.results.map (fun r => { r with revealed_at := some t }) } =
      get_revealed_results st := by
  unfold get_revealed_results
  simp only [List.map_map]
  rfl

lemma reveal_ok_shape (st : RevealState) (uid mid now : Int)
    (st1 : RevealState) (r1 : RevealResponse)
    (h : reveal_match st uid mid now = .ok (st1, r1)) :
    st.m.id = mid ∧ st.m.user_id = uid ∧
    st1.m.id = st.m.id ∧ st1.m.user_id = st.m.user_id ∧
    st1.m.credit_cost = st.m.credit_cost ∧
    (st1.m.status = st.m.status ∨ (st.m.status = "preview" ∧ st1.m.status = "revealed")) ∧
    ¬ st1.m.status = "preview" ∧
    (st1.user = st.user ∨
      (st.m.status = "preview" ∧ st1.m.status = "revealed" ∧
        st1.user.credits_balance = st.user.credits_balance - st.m.credit_cost)) ∧
    r1 = get_revealed_results st1 := by
  unfold reveal_match at h
  by_cases hid : st.m.id = mid ∧ st.m.user_id = uid
  · rw [if_pos hid] at h
    by_cases hrev : st.m.status = "revealed"
    · rw [if_pos hrev] at h
      obtain ⟨h1, h2⟩ := Prod.mk.injEq .. ▸ (Except.ok.inj h)
      subst h1
      refine ⟨hid.1, hid.2, rfl, rfl, rfl, Or.inl rfl, ?_, Or.inl rfl, h2.symm ▸ rfl⟩
      rw [hrev]; decide
    · rw [if_neg hrev] at h
      cases hes : entitlement_step st now with
      | error e =>
        simp only [hes] at h
        exact absurd h (by simp)
      | ok stA =>
        simp only [hes] at h
        obtain ⟨h1, h2⟩ := Prod.mk.injEq .. ▸ (Except.ok.inj h)
        rcases entitlement_step_ok_cases st now stA hes with
          ⟨hnp, rfl⟩ | ⟨hp, hsub, rfl⟩ | ⟨hp, hsub, hcred, rfl⟩
        · refine ⟨hid.1, hid.2, ?_⟩
          subst h1
          exact ⟨rfl, rfl, rfl, Or.inl rfl, hnp, Or.inl rfl, h2.symm⟩
        · refine ⟨hid.1, hid.2, ?_⟩
          subst h1
          refine ⟨rfl, rfl, rfl, Or.inr ⟨hp, rfl⟩,
            (by decide : ¬ ("revealed" : String) = "preview"), Or.inl rfl, h2.symm⟩
        · refine ⟨hid.1, hid.2, ?_⟩
          subst h1
          refine ⟨rfl, rfl, rfl, Or.inr ⟨hp, rfl⟩,
            (by decide : ¬ ("revealed" : String) = "preview"), Or.inr ⟨hp, rfl, rfl⟩, h2.symm⟩
  · rw [if_neg hid] at h
    exact absurd h (by simp)

lemma reveal_frozen (st : RevealState) (uid mid now : Int)
    (hstat : ¬ st.m.status = "preview") :
    reveal_match st uid mid now = .error ⟨404, "Match not found"⟩ ∨
    ∃ st2, reveal_match st uid mid now = .ok (st2, get_revealed_results st2) ∧
      st2.user = st.user ∧ st2.m = st.m ∧ st2.usage_logs = st.usage_logs ∧
      get_revealed_results st2 = get_revealed_results st := by
  unfold reveal_match
  by_cases hid : st.m.id = mid ∧ st.m.user_id = uid
  · rw [if_pos hid]
    by_cases hrev : st.m.status = "revealed"
    · rw [if_pos hrev]
      exact Or.inr ⟨st, rfl, rfl, rfl, rfl, rfl⟩
    · rw [if_neg hrev]
      simp only [entitlement_step_not_preview st now hstat]
      exact Or.inr ⟨_, rfl, rfl, rfl, rfl, get_revealed_results_stamp st now⟩
  · rw [if_neg hid]
    exact Or.inl rfl

lemma revealSeq_frozen (uid mid : Int) :
    ∀ (ts : List Int) (st : RevealState), ¬ st.m.status = "preview" →
      (revealSeq uid mid st ts).user = st.user ∧ (revealSeq uid mid st ts).m = st.m := by
  intro ts
  induction ts with
  | nil => intro st h; exact ⟨rfl, rfl⟩
  | cons t ts ih =>
    intro st h
    unfold revealSeq
    rcases reveal_frozen st uid mid t h with herr | ⟨st2, hok, hu, hm, hl, hr⟩
    · simp only [herr]
      exact ih st h
    · simp only [hok]
      have h2 : ¬ st2.m.status = "preview" := by rw [hm]; exact h
      obtain ⟨hu2, hm2⟩ := ih st2 h2
      exact ⟨by rw [hu2, hu], by rw [hm2, hm]⟩

end Matching

/-- C2: a successful reveal moves `Match.status` only forward (it stays
put, or moves `preview → revealed`), never backward; a reveal on an
already-revealed match is a no-op returning the cached result set; a
single call changes the balance by at most one deduction of
`credit_cost`; after any successful reveal, every further reveal call
leaves the user and match untouched and returns the identical result
set, so across any sequence of repeated calls credits are deducted at
most once. -/
theorem reveal_match_lifecycle :
    ∀ (st : Matching.RevealState) (uid mid now : Int)
      (st1 : Matching.RevealState) (r1 : Matching.RevealResponse),
      Matching.reveal_match st uid mid now = .ok (st1, r1) →
      (st1.m.status = st.m.status ∨ (st.m.status = "preview" ∧ st1.m.status = "revealed")) ∧
      (st.m.status = "revealed" → st1 = st ∧ r1 = Matching.get_revealed_results st) ∧
      (st1.user.credits_balance = st.user.credits_balance ∨
        st1.user.credits_balance = st.user.credits_balance - st.m.credit_cost) ∧
      (∀ (now2 : Int) (st2 : Matching.RevealState) (r2 : Matching.RevealResponse),
        Matching.reveal_match st1 uid mid now2 = .ok (st2, r2) →
        st2.user = st1.user ∧ st2.m = st1.m ∧ r2 = r1) ∧
      (∀ ts : List Int, (Matching.revealSeq uid mid st1 ts).user = st1.user) := by
  intro st uid mid now st1 r1 h
  obtain ⟨hid, huid, hmid, hmuid, hcost, hstat, hnp, huser, hr1⟩ :=
    Matching.reveal_ok_shape st uid mid now st1 r1 h
  refine ⟨hstat, ?_, ?_, ?_, ?_⟩
  · intro hrev
    unfold Matching.reveal_match at h
    rw [if_pos ⟨hid, huid⟩, if_pos hrev] at h
    obtain ⟨h1, h2⟩ := Prod.mk.injEq .. ▸ (Except.ok.inj h)
    exact ⟨h1.symm, h2.symm⟩
  · rcases huser with heq | ⟨-, -, hbal⟩
    · exact Or.inl (by rw [heq])
    · exact Or.inr hbal
  · intro now2 st2 r2 h2
    rcases Matching.reveal_frozen st1 uid mid now2 hnp with herr | ⟨st2w, hok, hu, hm, hl, hr⟩
    · rw [herr] at h2
      exact absurd h2 (by simp)
    · rw [hok] at h2
      obtain ⟨hA, hB⟩ := Prod.mk.injEq .. ▸ (Except.ok.inj h2)
      subst hA
      refine ⟨hu, hm, ?_⟩
      rw [← hB, hr, hr1]
  · intro ts
    exact (Matching.revealSeq_frozen uid mid ts st1 hnp).1

theorem reveal_match_lifecycle_witness :
    Matching.reveal_match c2st0 7 1 1000 = .ok (c2st1, c2resp) ∧
    (c2st1.user.credits_balance = c2st0.user.credits_balance ∨
      c2st1.user.credits_balance = c2st0.user.credits_balance - c2st0.m.credit_cost) :=
  ⟨by rfl, (reveal_match_lifecycle c2st0 7 1 1000 c2st1 c2resp (by rfl)).2.2.1⟩

/-- C3: when the match is still in `preview`, the requesting user owns
it, has no active subscription and a balance below the match's
`credit_cost`, the reveal fails with HTTP 402 whose detail carries the
human-readable hint derived from `subscription_status`
(`subscription_msg`); the error is raised before any mutation, so the
balance and the match status are unchanged. -/
theorem reveal_entitlement_denied :
    ∀ (st : Matching.RevealState) (uid mid now : Int),
      st.m.id = mid → st.m.user_id = uid → st.m.status = "preview" →
      Matching.is_subscribed st.user now = false →
      st.user.credits_balance < st.m.credit_cost →
      Matching.reveal_match st uid mid now = .error
        { status_code := 402,
          detail := "Insufficient credits and no active subscription." ++
            Matching.subscription_msg st.user.subscription_status ++
            " Please purchase credits or upgrade your plan." } := by
  intro st uid mid now hid huid hp hsub hbal
  unfold Matching.reveal_match
  rw [if_pos ⟨hid, huid⟩, if_neg (by rw [hp]; decide)]
  have hes : Matching.entitlement_step st now = .error
      { status_code := 402,
        detail := "Insufficient credits and no active subscription." ++
          Matching.subscription_msg st.user.subscription_status ++
          " Please purchase credits or upgrade your plan." } := by
    unfold Matching.entitlement_step
    rw [if_pos hp, if_neg (by rw [hsub]; decide), if_neg (not_le.mpr hbal)]
  simp only [hes]

theorem reveal_entitlement_denied_witness :
    c3st.m.id = 1 ∧ c3st.m.user_id = 7 ∧ c3st.m.status = "preview" ∧
    Matching.is_subscribed c3st.user 0 = false ∧
    c3st.user.credits_balance < c3st.m.credit_cost ∧
    Matching.reveal_match c3st 7 1 0 = .error
      { status_code := 402,
        detail := "Insufficient credits and no active subscription." ++
          Matching.subscription_msg c3st.user.subscription_status ++
          " Please purchase credits or upgrade your plan." } :=
  ⟨rfl, rfl, rfl, by decide, by decide,
   reveal_entitlement_denied c3st 7 1 0 rfl rfl rfl (by decide) (by decide)⟩

/-- C4: `is_subscribed` holds exactly when `subscription_status` is
`active` or `trialing` and `subscription_expires_at` is strictly in the
future; the subscription branch is evaluated before the credit check, so
for a subscribed owner the reveal of a preview match succeeds without
touching `credits_balance` and without appending a usage log, whatever
the balance. -/
theorem reveal_subscription_no_deduction :
    (∀ (u : Matching.UserRow) (now : Int),
      Matching.is_subscribed u now = true ↔
        ((u.subscription_status = some "active" ∨ u.subscription_status = some "trialing") ∧
          ∃ e, u.subscription_expires_at = some e ∧ now < e)) ∧
    ∀ (st : Matching.RevealState) (uid mid now : Int),
      st.m.id = mid → st.m.user_id = uid → st.m.status = "preview" →
      Matching.is_subscribed st.user now = true →
      ∃ st1 r1, Matching.reveal_match st uid mid now = .ok (st1, r1) ∧
        st1.user = st.user ∧ st1.m.status = "revealed" ∧
        st1.usage_logs = st.usage_logs := by
  constructor
  · intro u now
    cases he : u.subscription_expires_at with
    | none => simp [Matching.is_subscribed, he]
    | some e => simp [Matching.is_subscribed, he, and_assoc]
  · intro st uid mid now hid huid hp hsub
    have hes : Matching.entitlement_step st now =
        .ok { st with m := { st.m with status := "revealed" } } := by
      unfold Matching.entitlement_step
      rw [if_pos hp, if_pos hsub]
    have hrun : Matching.reveal_match st uid mid now = .ok
        (⟨⟨st.m.id, st.m.user_id, st.m.credit_cost, "revealed"⟩, st.user,
          st.results.map (fun r => { r with revealed_at := some now }), st.usage_logs⟩,
         Matching.get_revealed_results
           ⟨⟨st.m.id, st.m.user_id, st.m.credit_cost, "revealed"⟩, st.user,
            st.results.map (fun r => { r with revealed_at := some now }), st.usage_logs⟩) := by
      unfold Matching.reveal_match
      rw [if_pos ⟨hid, huid⟩, if_neg (by rw [hp]; decide)]
      simp only [hes]
    exact ⟨_, _, hrun, rfl, rfl, rfl⟩

theorem reveal_subscription_no_deduction_witness :
    c4st.m.status = "preview" ∧ Matching.is_subscribed c4st.user 100 = true ∧
    (∃ st1 r1, Matching.reveal_match c4st 9 2 100 = .ok (st1, r1) ∧
      st1.user = c4st.user ∧ st1.m.status = "revealed" ∧
      st1.usage_logs = c4st.usage_logs) :=
  ⟨rfl, by decide, reveal_subscription_no_deduction.2 c4st 9 2 100 rfl rfl rfl (by decide)⟩

/-- C1 counterexample, refuting the claim in both of its cited scopes.
POC builder: an unpaid (not revealed) preview entry still carries the
stored plain email unmasked in its `raw_email` field
(`raw_email = "sarah.martinez@netflix.com"` while `email_plain` is
emptied).  DB-backed `reveal_match`: for a match in the intermediate
`"paid"` status the code skips both the revealed early-return and the
preview entitlement block, stamps `revealed_at`, and returns
`_get_revealed_results` — the stored plain email
(`email = "jane@netflix.com"` from `email_plain`) is returned unmasked
while `Match.status` remains `"paid" ≠ "revealed"`. -/
theorem plain_email_exposure_counterexample :
    (((MatchingPoc.build_one 0 mockRec false).map fun o => o.raw_email) =
      some "sarah.martinez@netflix.com") ∧
    (((MatchingPoc.build_one 0 mockRec false).map fun o => o.email_plain) = some "") ∧
    Matching.reveal_match c1paidSt 5 3 1000 = .ok (c1paidSt1, c1paidResp) ∧
    c1paidResp.results.map (fun p => p.email) = ["jane@netflix.com"] ∧
    c1paidSt.results.map (fun r => r.email_plain) = [some "jane@netflix.com"] ∧
    c1paidSt1.m.status = "paid" ∧
    ¬ c1paidSt1.m.status = "revealed" :=
  ⟨by decide, by decide, by rfl, by decide, by decide, by decide, by decide⟩

/-- C1 amended, keeping both cited scopes.  DB-backed reveal flow: every
successful `reveal_match` call returns `_get_revealed_results` — the
stored plain emails unmasked (`email = result.email_plain or …`); the
parent match ends in status `"revealed"` when it started in `"preview"`,
but a match in any other status (notably the intermediate `"paid"`)
keeps its status, so plain emails are returned not only when the parent
status is `"revealed"` but also on the `"paid"` fall-through.  POC
builder: in an unpaid entry `email_plain` is empty and `email_masked` is
exactly `mask_email` of the plain address, but the `raw_email` field
always carries the plain email — identical between unpaid and paid
responses — and the paid response exposes it in `email_plain` too. -/
theorem plain_email_exposure_amended :
    (∀ (st : Matching.RevealState) (uid mid now : Int)
       (st1 : Matching.RevealState) (r1 : Matching.RevealResponse),
      Matching.reveal_match st uid mid now = .ok (st1, r1) →
      r1 = Matching.get_revealed_results st1 ∧
      (st.m.status = "preview" → st1.m.status = "revealed") ∧
      (¬ st.m.status = "preview" → st1.m.status = st.m.status)) ∧
    (∀ (i : Nat) (r : MatchingPoc.SourceRec),
      (MatchingPoc.build_one i r false).isSome = true →
      ((MatchingPoc.build_one i r false).map fun o => o.email_plain) = some "" ∧
      (∀ out, MatchingPoc.build_one i r false = some out →
        MatchingPoc.mask_email out.raw_email = some out.email_masked) ∧
      ((MatchingPoc.build_one i r false).map fun o => o.raw_email) =
        ((MatchingPoc.build_one i r true).map fun o => o.raw_email) ∧
      ((MatchingPoc.build_one i r true).map fun o => o.email_plain) =
        ((MatchingPoc.build_one i r true).map fun o => o.raw_email)) := by
  constructor
  · intro st uid mid now st1 r1 h
    obtain ⟨hid, huid, hmid, hmuid, hcost, hstat, hnp, huser, hr1⟩ :=
      Matching.reveal_ok_shape st uid mid now st1 r1 h
    refine ⟨hr1, ?_, ?_⟩
    · intro hp
      rcases hstat with heq | ⟨-, hrev⟩
      · exact absurd (heq.trans hp) hnp
      · exact hrev
    · intro hnp0
      rcases hstat with heq | ⟨hp, -⟩
      · exact heq
      · exact absurd hp hnp0
  · intro i r hsome
    cases hm : MatchingPoc.mask_email
        (r.email.getD ("contact" ++ toString (i + 1) ++ "@company.com")) with
    | none =>
      rw [show MatchingPoc.build_one i r false = none by
        simp [MatchingPoc.build_one, hm]] at hsome
      exact absurd hsome (by simp)
    | some masked =>
      refine ⟨?_, ?_, ?_, ?_⟩
      · simp [MatchingPoc.build_one, hm]
      · intro out hout
        rw [show MatchingPoc.build_one i r false =
            some { name := r.name.getD ("Contact " ++ toString (i + 1)),
                   title := r.title.getD "Industry Professional",
                   company_name := r.company.getD "Media Company",
                   company_blurred :=
                     MatchingPoc.blur_company_name (r.company.getD "Media Company"),
                   email_plain := "",
                   email_masked := masked,
                   raw_email := r.email.getD ("contact" ++ toString (i + 1) ++ "@company.com"),
                   reason := r.reason.getD "Industry professional with relevant experience",
                   email_draft := r.email_draft.getD "Professional outreach email",
                   score := (9 : ℚ)/10 - (i : ℚ) * ((1 : ℚ)/10) } by
          simp [MatchingPoc.build_one, hm]] at hout
        obtain rfl := (Option.some.inj hout).symm
        exact hm ▸ rfl
      · simp [MatchingPoc.build_one, hm]
      · simp [MatchingPoc.build_one]

theorem plain_email_exposure_amended_witness :
    Matching.reveal_match c1paidSt 5 3 1000 = .ok (c1paidSt1, c1paidResp) ∧
    c1paidResp = Matching.get_revealed_results c1paidSt1 ∧
    ¬ c1paidSt.m.status = "preview" ∧
    c1paidSt1.m.status = c1paidSt.m.status ∧
    (MatchingPoc.build_one 0 mockRec false).isSome = true ∧
    ((MatchingPoc.build_one 0 mockRec false).map fun o => o.email_plain) = some "" :=
  ⟨by rfl,
   (plain_email_exposure_amended.1 c1paidSt 5 3 1000 c1paidSt1 c1paidResp (by rfl)).1,
   by decide,
   (plain_email_exposure_amended.1 c1paidSt 5 3 1000 c1paidSt1 c1paidResp (by rfl)).2.2
     (by decide),
   by decide,
   (plain_email_exposure_amended.2 0 mockRec (by decide)).1⟩
